import Mathlib

/-!
Verification of the paper-trading bot `trader.py`.

The program is a single linear cycle: load the persisted portfolio, fetch a
price, apply a fixed-threshold buy/sell rule, append a log line, save the
portfolio.  We embed it shallowly:

* monetary amounts and prices are exact rationals (`ℚ`); the decimal
  literals `0.98`, `1.02`, `10000.0` of the source are exact in `ℚ`;
* the files the program touches are an explicit `FS` record threaded through
  the cycle (`data/portfolio.json` and `data/trade_log.csv`; the dashboard
  `README.md` written by `update_readme`, lines 94-130, touches neither of
  those files and no claim concerns it, so it is not modelled);
* a Python `ZeroDivisionError` (the divisions `100 / current_price` at
  lines 52 and 62) is modelled by returning `none`: the exception would
  propagate out of `execute_trade` before any file is written;
* the explanation strings (`log_msg`) and console prints are modelled by
  inductive types carrying the same information, since no claim depends on
  their exact formatting.
-/

namespace Trader

/-- The persisted portfolio record (`data/portfolio.json`): the dictionary
with keys `cash`, `btc`, `last_price`, `total_value` used throughout
`trader.py`. -/
structure Portfolio where
  cash : ℚ
  btc : ℚ
  last_price : ℚ
  total_value : ℚ
deriving Repr, DecidableEq

/-- `INITIAL_CASH = 10000.0` (`trader.py` line 7). -/
def INITIAL_CASH : ℚ := 10000

/-- The values of the `trade_action` variable of `execute_trade`
(the strings "INIT", "BUY", "SELL", "HOLD"). -/
inductive Action where
  | INIT
  | BUY
  | SELL
  | HOLD
deriving Repr, DecidableEq

/-- The values of the `log_msg` variable of `execute_trade`, one constructor
per assignment in the source; `dipBuy` carries the purchased quantity that
the source interpolates into the message (line 56). -/
inductive Msg where
  | initMonitor
  | dipBuy (q : ℚ)
  | cashShort
  | riseSell
  | positionShort
  | smallMove
deriving Repr, DecidableEq

/-- Lines 74-76 of `execute_trade`, applied after every branch:
`total_value = cash + btc * current_price` and `last_price = current_price`. -/
def settle (p : Portfolio) (current_price : ℚ) : Portfolio :=
  { p with total_value := p.cash + p.btc * current_price,
           last_price := current_price }

/-- Lines 39-76 of `execute_trade`: branch selection and the in-memory
update of the portfolio dictionary.  `none` models the `ZeroDivisionError`
Python raises when `100 / current_price` is evaluated with
`current_price = 0` (line 52 after the cash check, line 62 before the
holdings check). -/
def trade_decision (portfolio : Portfolio) (current_price : ℚ) :
    Option (Portfolio × Action × Msg) :=
  if portfolio.last_price = 0 then
    some (settle { portfolio with last_price := current_price } current_price,
          Action.INIT, Msg.initMonitor)
  else if current_price < portfolio.last_price * 0.98 then
    if 100 ≤ portfolio.cash then
      if current_price = 0 then none
      else
        some (settle { portfolio with
                         btc := portfolio.btc + 100 / current_price,
                         cash := portfolio.cash - 100 } current_price,
              Action.BUY, Msg.dipBuy (100 / current_price))
    else
      some (settle portfolio current_price, Action.HOLD, Msg.cashShort)
  else if portfolio.last_price * 1.02 < current_price then
    if current_price = 0 then none
    else if 100 / current_price ≤ portfolio.btc then
      some (settle { portfolio with
                       btc := portfolio.btc - 100 / current_price,
                       cash := portfolio.cash + 100 } current_price,
            Action.SELL, Msg.riseSell)
    else
      some (settle portfolio current_price, Action.HOLD, Msg.positionShort)
  else
    some (settle portfolio current_price, Action.HOLD, Msg.smallMove)

/-- One line of `data/trade_log.csv`: the header row (line 85) or one data
row (line 86: timestamp, action, price, resulting total value, message). -/
inductive LogLine where
  | header
  | entry (ts : String) (action : Action) (price : ℚ) (total : ℚ) (msg : Msg)
deriving Repr, DecidableEq

/-- The files the program touches: the `data` directory, the portfolio JSON
file and the trade log (`none` means the file does not exist; a log file is
its list of lines). -/
structure FS where
  dataDirExists : Bool
  portfolioFile : Option Portfolio
  logFile : Option (List LogLine)
deriving Repr, DecidableEq

/-- `load_portfolio` (lines 11-25), the pure part: the fresh record when
`data/portfolio.json` is absent, otherwise the persisted record.  (The
directory creation of lines 14-15 is modelled in `main_cycle`.) -/
def load_portfolio (file : Option Portfolio) : Portfolio :=
  match file with
  | none => { cash := INITIAL_CASH, btc := 0, last_price := 0,
              total_value := INITIAL_CASH }
  | some p => p

/-- Lines 81-86 of `execute_trade`: open the log for append, write the
header row only if the file did not previously exist, then write the given
line. -/
def append_log (log : Option (List LogLine)) (line : LogLine) : List LogLine :=
  match log with
  | none => [LogLine.header, line]
  | some ls => ls ++ [line]

/-- `execute_trade` (lines 37-92): the decision and portfolio update of
lines 39-76, then the log append of lines 79-86 and the portfolio save of
lines 88-90.  `none` models the uncaught `ZeroDivisionError`, which is
raised before any file is written. -/
def execute_trade (fs : FS) (portfolio : Portfolio) (current_price : ℚ)
    (ts : String) : Option (FS × Action × Msg) :=
  match trade_decision portfolio current_price with
  | none => none
  | some (p, act, msg) =>
      some ({ fs with
                logFile := some (append_log fs.logFile
                  (LogLine.entry ts act current_price p.total_value msg)),
                portfolioFile := some p },
            act, msg)

/-- The console lines printed by the `__main__` block: the fetched price
(line 140), the completion line with the action taken (line 143), and the
failure line (line 145). -/
inductive ConsoleMsg where
  | btcPrice (p : ℚ)
  | doneAction (a : Action)
  | failedFetch
deriving Repr, DecidableEq

/-- The `__main__` block (lines 132-145) for one scheduled run: load the
portfolio (which first ensures the `data` directory exists), fetch a price
(`fetched` is the value returned by `get_btc_price`: `none` on any fetch
error), and run `execute_trade` only when `if price:` holds — Python
truthiness, under which both `None` and `0.0` are falsy.  Returns the final
file state and the console output; `none` models an uncaught exception. -/
def main_cycle (fs : FS) (fetched : Option ℚ) (ts : String) :
    Option (FS × List ConsoleMsg) :=
  let fs1 : FS := { fs with dataDirExists := true }
  let port := load_portfolio fs1.portfolioFile
  match fetched with
  | some price =>
      if price ≠ 0 then
        match execute_trade fs1 port price ts with
        | none => none
        | some (fs2, act, _) =>
            some (fs2, [ConsoleMsg.btcPrice price, ConsoleMsg.doneAction act])
      else
        some (fs1, [ConsoleMsg.failedFetch])
  | none => some (fs1, [ConsoleMsg.failedFetch])

/-- Iterated scheduled runs of the program: one `main_cycle` per element of
`runs` (fetched price and timestamp), stopping with `none` if a run
crashes. -/
def run_cycles (fs : FS) (runs : List (Option ℚ × String)) : Option FS :=
  match runs with
  | [] => some fs
  | (price, ts) :: rest =>
      match main_cycle fs price ts with
      | none => none
      | some (fs1, _) => run_cycles fs1 rest

/-- Number of header rows in a log file. -/
def header_count (ls : List LogLine) : Nat :=
  ls.countP (fun l => match l with | LogLine.header => true | _ => false)

end Trader

namespace Trader

@[simp] theorem settle_cash (p : Portfolio) (c : ℚ) : (settle p c).cash = p.cash := rfl

@[simp] theorem settle_btc (p : Portfolio) (c : ℚ) : (settle p c).btc = p.btc := rfl

@[simp] theorem settle_last (p : Portfolio) (c : ℚ) : (settle p c).last_price = c := rfl

@[simp] theorem settle_total (p : Portfolio) (c : ℚ) :
    (settle p c).total_value = p.cash + p.btc * c := rfl

/-- Every successful `trade_decision` call returns a portfolio produced by
`settle` at the current price. -/
theorem trade_decision_shape (p : Portfolio) (c : ℚ) (r : Portfolio × Action × Msg)
    (h : trade_decision p c = some r) : ∃ q : Portfolio, r.1 = settle q c := by
  unfold trade_decision at h
  split_ifs at h <;> simp only [Option.some.injEq] at h <;> exact ⟨_, by rw [← h]⟩

/-- Branch equation: lines 44-47 (initialisation). -/
theorem trade_decision_init (p : Portfolio) (c : ℚ) (h : p.last_price = 0) :
    trade_decision p c =
      some (settle { p with last_price := c } c, Action.INIT, Msg.initMonitor) := by
  unfold trade_decision
  rw [if_pos h]

/-- Branch equation: lines 50-56 (price dropped more than 2 %, enough cash). -/
theorem trade_decision_buy (p : Portfolio) (c : ℚ) (h0 : p.last_price ≠ 0)
    (hdrop : c < p.last_price * 0.98) (hcash : 100 ≤ p.cash) (hc : c ≠ 0) :
    trade_decision p c =
      some (settle { p with btc := p.btc + 100 / c, cash := p.cash - 100 } c,
            Action.BUY, Msg.dipBuy (100 / c)) := by
  unfold trade_decision
  rw [if_neg h0, if_pos hdrop, if_pos hcash, if_neg hc]

/-- Branch equation: lines 50, 57-58 (price dropped, not enough cash). -/
theorem trade_decision_cash_short (p : Portfolio) (c : ℚ) (h0 : p.last_price ≠ 0)
    (hdrop : c < p.last_price * 0.98) (hcash : ¬ 100 ≤ p.cash) :
    trade_decision p c = some (settle p c, Action.HOLD, Msg.cashShort) := by
  unfold trade_decision
  rw [if_neg h0, if_pos hdrop, if_neg hcash]

/-- Branch equation: lines 61-67 (price rose more than 2 %, enough holdings). -/
theorem trade_decision_sell (p : Portfolio) (c : ℚ) (h0 : p.last_price ≠ 0)
    (hdrop : ¬ c < p.last_price * 0.98) (hrise : p.last_price * 1.02 < c)
    (hc : c ≠ 0) (hbtc : 100 / c ≤ p.btc) :
    trade_decision p c =
      some (settle { p with btc := p.btc - 100 / c, cash := p.cash + 100 } c,
            Action.SELL, Msg.riseSell) := by
  unfold trade_decision
  rw [if_neg h0, if_neg hdrop, if_pos hrise, if_neg hc, if_pos hbtc]

/-- Branch equation: lines 61-63, 68-69 (price rose, not enough holdings). -/
theorem trade_decision_position_short (p : Portfolio) (c : ℚ) (h0 : p.last_price ≠ 0)
    (hdrop : ¬ c < p.last_price * 0.98) (hrise : p.last_price * 1.02 < c)
    (hc : c ≠ 0) (hbtc : ¬ 100 / c ≤ p.btc) :
    trade_decision p c = some (settle p c, Action.HOLD, Msg.positionShort) := by
  unfold trade_decision
  rw [if_neg h0, if_neg hdrop, if_pos hrise, if_neg hc, if_neg hbtc]

/-- Branch equation: lines 71-72 (movement within the ±2 % band). -/
theorem trade_decision_small_move (p : Portfolio) (c : ℚ) (h0 : p.last_price ≠ 0)
    (hdrop : ¬ c < p.last_price * 0.98) (hrise : ¬ p.last_price * 1.02 < c) :
    trade_decision p c = some (settle p c, Action.HOLD, Msg.smallMove) := by
  unfold trade_decision
  rw [if_neg h0, if_neg hdrop, if_neg hrise]

end Trader

namespace Trader

/-- Inversion for `execute_trade`: a successful call is a successful
`trade_decision` followed by the log append and the portfolio save. -/
theorem execute_trade_shape (fs : FS) (p : Portfolio) (c : ℚ) (ts : String)
    (r : FS × Action × Msg) (h : execute_trade fs p c ts = some r) :
    ∃ q msg, trade_decision p c = some (q, r.2.1, msg) ∧ r.2.2 = msg ∧
      r.1 = { fs with
                logFile := some (append_log fs.logFile
                  (LogLine.entry ts r.2.1 c q.total_value msg)),
                portfolioFile := some q } := by
  rcases hd : trade_decision p c with _ | ⟨q, act, msg⟩
  · unfold execute_trade at h
    rw [hd] at h
    exact absurd h (by simp)
  · unfold execute_trade at h
    rw [hd] at h
    have hr : r = ({ fs with
        logFile := some (append_log fs.logFile
          (LogLine.entry ts act c q.total_value msg)),
        portfolioFile := some q }, act, msg) := (Option.some.inj h).symm
    subst hr
    exact ⟨q, msg, rfl, rfl, rfl⟩

/-- C1: for every portfolio with `cash ≥ 0`, `btc ≥ 0` and every positive
current price, the trade decision succeeds and preserves `cash ≥ 0` and
`btc ≥ 0`; a BUY fires only when `cash ≥ 100`, a SELL only when
`btc ≥ 100 / current_price`, and every other branch leaves `cash` and `btc`
unchanged. -/
theorem C1_nonneg_invariant (p : Portfolio) (c : ℚ)
    (hcash : 0 ≤ p.cash) (hbtc : 0 ≤ p.btc) (hc : 0 < c) :
    ∃ q a m, trade_decision p c = some (q, a, m) ∧
      0 ≤ q.cash ∧ 0 ≤ q.btc ∧
      (a = Action.BUY → 100 ≤ p.cash) ∧
      (a = Action.SELL → 100 / c ≤ p.btc) ∧
      (a ≠ Action.BUY → a ≠ Action.SELL → q.cash = p.cash ∧ q.btc = p.btc) := by
  have hc0 : c ≠ 0 := hc.ne'
  by_cases h0 : p.last_price = 0
  · exact ⟨_, _, _, trade_decision_init p c h0, hcash, hbtc,
      fun h => Action.noConfusion h, fun h => Action.noConfusion h,
      fun _ _ => ⟨rfl, rfl⟩⟩
  · by_cases hdrop : c < p.last_price * 0.98
    · by_cases h100 : 100 ≤ p.cash
      · have hdiv : (0:ℚ) ≤ 100 / c := by positivity
        exact ⟨_, _, _, trade_decision_buy p c h0 hdrop h100 hc0,
          show (0:ℚ) ≤ p.cash - 100 by linarith,
          show (0:ℚ) ≤ p.btc + 100 / c by linarith,
          fun _ => h100, fun h => Action.noConfusion h,
          fun h _ => absurd rfl h⟩
      · exact ⟨_, _, _, trade_decision_cash_short p c h0 hdrop h100, hcash, hbtc,
          fun h => Action.noConfusion h, fun h => Action.noConfusion h,
          fun _ _ => ⟨rfl, rfl⟩⟩
    · by_cases hrise : p.last_price * 1.02 < c
      · by_cases hpos : 100 / c ≤ p.btc
        · exact ⟨_, _, _, trade_decision_sell p c h0 hdrop hrise hc0 hpos,
            show (0:ℚ) ≤ p.cash + 100 by linarith,
            show (0:ℚ) ≤ p.btc - 100 / c by linarith,
            fun h => Action.noConfusion h, fun _ => hpos,
            fun _ h => absurd rfl h⟩
        · exact ⟨_, _, _, trade_decision_position_short p c h0 hdrop hrise hc0 hpos,
            hcash, hbtc, fun h => Action.noConfusion h, fun h => Action.noConfusion h,
            fun _ _ => ⟨rfl, rfl⟩⟩
      · exact ⟨_, _, _, trade_decision_small_move p c h0 hdrop hrise, hcash, hbtc,
          fun h => Action.noConfusion h, fun h => Action.noConfusion h,
          fun _ _ => ⟨rfl, rfl⟩⟩

/-- C1 witness: the fresh portfolio at price 50000 satisfies the
hypotheses, and the conclusion holds there. -/
theorem C1_nonneg_invariant_witness :
    (0:ℚ) ≤ (⟨10000, 0, 0, 10000⟩ : Portfolio).cash ∧
    (0:ℚ) ≤ (⟨10000, 0, 0, 10000⟩ : Portfolio).btc ∧
    (0:ℚ) < 50000 ∧
    (∃ q a m, trade_decision ⟨10000, 0, 0, 10000⟩ 50000 = some (q, a, m) ∧
      0 ≤ q.cash ∧ 0 ≤ q.btc ∧
      (a = Action.BUY → 100 ≤ (⟨10000, 0, 0, 10000⟩ : Portfolio).cash) ∧
      (a = Action.SELL → 100 / 50000 ≤ (⟨10000, 0, 0, 10000⟩ : Portfolio).btc) ∧
      (a ≠ Action.BUY → a ≠ Action.SELL →
        q.cash = (⟨10000, 0, 0, 10000⟩ : Portfolio).cash ∧
        q.btc = (⟨10000, 0, 0, 10000⟩ : Portfolio).btc)) :=
  ⟨by norm_num, by norm_num, by norm_num,
    C1_nonneg_invariant ⟨10000, 0, 0, 10000⟩ 50000 (by norm_num) (by norm_num)
      (by norm_num)⟩

/-- C2: after every successful `execute_trade`, the stored `total_value`
equals `cash + btc * current_price` for the stored cash and holdings. -/
theorem C2_total_value (fs : FS) (p : Portfolio) (c : ℚ) (ts : String)
    (r : FS × Action × Msg) (h : execute_trade fs p c ts = some r) :
    ∃ q, r.1.portfolioFile = some q ∧ q.total_value = q.cash + q.btc * c := by
  obtain ⟨q, msg, hd, _, hr⟩ := execute_trade_shape fs p c ts r h
  obtain ⟨q0, hq0⟩ := trade_decision_shape p c (q, r.2.1, msg) hd
  refine ⟨q, by rw [hr], ?_⟩
  rw [show q = settle q0 c from hq0]
  simp

/-- C2 witness: one INITIALIZE cycle on the fresh portfolio at price 50000. -/
theorem C2_total_value_witness :
    ∃ q, (({ dataDirExists := true,
             portfolioFile := some ⟨10000, 0, 50000, 10000⟩,
             logFile := some [LogLine.header,
               LogLine.entry "t" Action.INIT 50000 10000 Msg.initMonitor] } : FS),
           Action.INIT, Msg.initMonitor).1.portfolioFile = some q ∧
      q.total_value = q.cash + q.btc * 50000 :=
  C2_total_value ⟨true, none, none⟩ ⟨10000, 0, 0, 10000⟩ 50000 "t"
    (({ dataDirExists := true,
        portfolioFile := some ⟨10000, 0, 50000, 10000⟩,
        logFile := some [LogLine.header,
          LogLine.entry "t" Action.INIT 50000 10000 Msg.initMonitor] } : FS),
      Action.INIT, Msg.initMonitor)
    (by norm_num [execute_trade, trade_decision, settle, append_log])

/-- C6: after every successful `execute_trade`, the stored `last_price`
equals the cycle's current price, regardless of the action taken. -/
theorem C6_last_price_updated (fs : FS) (p : Portfolio) (c : ℚ) (ts : String)
    (r : FS × Action × Msg) (h : execute_trade fs p c ts = some r) :
    ∃ q, r.1.portfolioFile = some q ∧ q.last_price = c := by
  obtain ⟨q, msg, hd, _, hr⟩ := execute_trade_shape fs p c ts r h
  obtain ⟨q0, hq0⟩ := trade_decision_shape p c (q, r.2.1, msg) hd
  refine ⟨q, by rw [hr], ?_⟩
  rw [show q = settle q0 c from hq0]
  simp

/-- C6 witness: `last_price = 50000`, `current_price = 50400` is a HOLD
(small movement), yet the stored `last_price` becomes 50400 with cash and
holdings unchanged. -/
theorem C6_last_price_updated_witness :
    execute_trade ⟨true, some ⟨10000, 0, 50000, 10000⟩, none⟩
        ⟨10000, 0, 50000, 10000⟩ 50400 "t" =
      some (⟨true, some ⟨10000, 0, 50400, 10000⟩,
             some [LogLine.header,
               LogLine.entry "t" Action.HOLD 50400 10000 Msg.smallMove]⟩,
            Action.HOLD, Msg.smallMove) ∧
    (∃ q, ((⟨true, some ⟨10000, 0, 50400, 10000⟩,
             some [LogLine.header,
               LogLine.entry "t" Action.HOLD 50400 10000 Msg.smallMove]⟩ : FS),
            Action.HOLD, Msg.smallMove).1.portfolioFile = some q ∧
      q.last_price = 50400) :=
  ⟨by norm_num [execute_trade, trade_decision, settle, append_log],
   C6_last_price_updated ⟨true, some ⟨10000, 0, 50000, 10000⟩, none⟩
     ⟨10000, 0, 50000, 10000⟩ 50400 "t"
     ((⟨true, some ⟨10000, 0, 50400, 10000⟩,
        some [LogLine.header,
          LogLine.entry "t" Action.HOLD 50400 10000 Msg.smallMove]⟩ : FS),
       Action.HOLD, Msg.smallMove)
     (by norm_num [execute_trade, trade_decision, settle, append_log])⟩

end Trader

namespace Trader

/-- C3 counterexample: with `last_price = 50000 > 0`, `cash = 10000 ≥ 100`
and `current_price = 0 < 50000 * 0.98`, the claim's hypotheses hold, yet the
call raises `ZeroDivisionError` (modelled as `none`) instead of performing a
BUY. -/
theorem C3_zero_price_counterexample :
    trade_decision ⟨10000, 0, 50000, 10000⟩ 0 = none := by
  norm_num [trade_decision, settle]

/-- C3 (amended with `current_price ≠ 0`): a drop of more than 2 % with
sufficient cash yields a BUY that adds `100 / current_price` to the
holdings, subtracts 100 from cash, and keeps the mark-to-market value. -/
theorem C3_buy_branch (p : Portfolio) (c : ℚ) (h0 : 0 < p.last_price)
    (hdrop : c < p.last_price * 0.98) (hc : c ≠ 0) (h100 : 100 ≤ p.cash) :
    ∃ q m, trade_decision p c = some (q, Action.BUY, m) ∧
      q.btc = p.btc + 100 / c ∧ q.cash = p.cash - 100 ∧
      q.total_value = p.cash + p.btc * c := by
  refine ⟨_, _, trade_decision_buy p c h0.ne' hdrop h100 hc, rfl, rfl, ?_⟩
  show (p.cash - 100) + (p.btc + 100 / c) * c = p.cash + p.btc * c
  field_simp

/-- C3 witness: Scenario 2 of the spec — `last_price = 50000`,
`current_price = 48000`, `cash = 10000`, `btc = 0` gives a BUY with
`cash = 9900`, `btc = 100 / 48000`, `total_value = 10000`. -/
theorem C3_buy_branch_witness :
    (0:ℚ) < (⟨10000, 0, 50000, 10000⟩ : Portfolio).last_price ∧
    (48000:ℚ) < (⟨10000, 0, 50000, 10000⟩ : Portfolio).last_price * 0.98 ∧
    (48000:ℚ) ≠ 0 ∧
    (100:ℚ) ≤ (⟨10000, 0, 50000, 10000⟩ : Portfolio).cash ∧
    (∃ q m, trade_decision ⟨10000, 0, 50000, 10000⟩ 48000 =
        some (q, Action.BUY, m) ∧
      q.btc = (⟨10000, 0, 50000, 10000⟩ : Portfolio).btc + 100 / 48000 ∧
      q.cash = (⟨10000, 0, 50000, 10000⟩ : Portfolio).cash - 100 ∧
      q.total_value = (⟨10000, 0, 50000, 10000⟩ : Portfolio).cash +
        (⟨10000, 0, 50000, 10000⟩ : Portfolio).btc * 48000) :=
  ⟨by norm_num, by norm_num, by norm_num, by norm_num,
    C3_buy_branch ⟨10000, 0, 50000, 10000⟩ 48000 (by norm_num) (by norm_num)
      (by norm_num) (by norm_num)⟩

/-- C7 counterexample: in the claim's own scenario (`last_price = 50000`,
`current_price = 51500`, `btc = 0`) the action is HOLD (insufficient
position), yet the portfolio record is changed: `last_price` becomes
51500. -/
theorem C7_state_changed_counterexample :
    trade_decision ⟨10000, 0, 50000, 10000⟩ 51500 =
      some (⟨10000, 0, 51500, 10000⟩, Action.HOLD, Msg.positionShort) ∧
    (⟨10000, 0, 51500, 10000⟩ : Portfolio) ≠ ⟨10000, 0, 50000, 10000⟩ := by
  constructor
  · norm_num [trade_decision, settle]
  · intro h
    have : (51500 : ℚ) = 50000 := congrArg Portfolio.last_price h
    norm_num at this

/-- C7 (amended): a rise of more than 2 % with insufficient holdings is a
HOLD that leaves `cash` and `btc` unchanged, while `last_price` is updated
to the current price (so the record as a whole does change). -/
theorem C7_hold_insufficient_position (p : Portfolio) (c : ℚ)
    (h0 : 0 < p.last_price) (hrise : p.last_price * 1.02 < c)
    (hpos : p.btc < 100 / c) :
    trade_decision p c = some (settle p c, Action.HOLD, Msg.positionShort) ∧
    (settle p c).cash = p.cash ∧ (settle p c).btc = p.btc ∧
    (settle p c).last_price = c := by
  have hc : 0 < c := lt_trans (mul_pos h0 (by norm_num)) hrise
  have h98 : p.last_price * 0.98 < c := by nlinarith
  exact ⟨trade_decision_position_short p c h0.ne' (not_lt.mpr h98.le) hrise
      hc.ne' (not_le.mpr hpos), rfl, rfl, rfl⟩

/-- C7 witness: Scenario 3 — `last_price = 50000`, `current_price = 51500`,
`btc = 0`: HOLD with cash and holdings unchanged, `last_price` now 51500. -/
theorem C7_hold_insufficient_position_witness :
    (0:ℚ) < (⟨10000, 0, 50000, 10000⟩ : Portfolio).last_price ∧
    (⟨10000, 0, 50000, 10000⟩ : Portfolio).last_price * 1.02 < 51500 ∧
    (⟨10000, 0, 50000, 10000⟩ : Portfolio).btc < 100 / 51500 ∧
    (trade_decision ⟨10000, 0, 50000, 10000⟩ 51500 =
        some (settle ⟨10000, 0, 50000, 10000⟩ 51500, Action.HOLD,
          Msg.positionShort) ∧
      (settle ⟨10000, 0, 50000, 10000⟩ 51500).cash =
        (⟨10000, 0, 50000, 10000⟩ : Portfolio).cash ∧
      (settle ⟨10000, 0, 50000, 10000⟩ 51500).btc =
        (⟨10000, 0, 50000, 10000⟩ : Portfolio).btc ∧
      (settle ⟨10000, 0, 50000, 10000⟩ 51500).last_price = 51500) :=
  ⟨by norm_num, by norm_num, by norm_num,
    C7_hold_insufficient_position ⟨10000, 0, 50000, 10000⟩ 51500 (by norm_num)
      (by norm_num) (by norm_num)⟩

/-- C10: a BUY or SELL exchanges exactly 100 of cash against
`100 / current_price` of the asset, so it preserves the mark-to-market value
`cash + btc * current_price`, and the recomputed `total_value` equals the
pre-trade mark-to-market value. -/
theorem C10_mark_to_market (p : Portfolio) (c : ℚ) (q : Portfolio) (a : Action)
    (m : Msg) (hc : 0 < c) (h : trade_decision p c = some (q, a, m))
    (ha : a = Action.BUY ∨ a = Action.SELL) :
    q.cash + q.btc * c = p.cash + p.btc * c ∧
    q.total_value = p.cash + p.btc * c := by
  have hc0 : c ≠ 0 := hc.ne'
  have hbuy : (p.cash - 100) + (p.btc + 100 / c) * c = p.cash + p.btc * c := by
    field_simp
  have hsell : (p.cash + 100) + (p.btc - 100 / c) * c = p.cash + p.btc * c := by
    field_simp
  by_cases h0 : p.last_price = 0
  · rw [trade_decision_init p c h0] at h
    simp only [Option.some.injEq, Prod.mk.injEq] at h
    rcases ha with ha | ha <;> rw [← h.2.1] at ha <;> exact Action.noConfusion ha
  · by_cases hdrop : c < p.last_price * 0.98
    · by_cases h100 : 100 ≤ p.cash
      · rw [trade_decision_buy p c h0 hdrop h100 hc0] at h
        simp only [Option.some.injEq, Prod.mk.injEq] at h
        rw [← h.1]
        exact ⟨hbuy, hbuy⟩
      · rw [trade_decision_cash_short p c h0 hdrop h100] at h
        simp only [Option.some.injEq, Prod.mk.injEq] at h
        rcases ha with ha | ha <;> rw [← h.2.1] at ha <;> exact Action.noConfusion ha
    · by_cases hrise : p.last_price * 1.02 < c
      · by_cases hpos : 100 / c ≤ p.btc
        · rw [trade_decision_sell p c h0 hdrop hrise hc0 hpos] at h
          simp only [Option.some.injEq, Prod.mk.injEq] at h
          rw [← h.1]
          exact ⟨hsell, hsell⟩
        · rw [trade_decision_position_short p c h0 hdrop hrise hc0 hpos] at h
          simp only [Option.some.injEq, Prod.mk.injEq] at h
          rcases ha with ha | ha <;> rw [← h.2.1] at ha <;> exact Action.noConfusion ha
      · rw [trade_decision_small_move p c h0 hdrop hrise] at h
        simp only [Option.some.injEq, Prod.mk.injEq] at h
        rcases ha with ha | ha <;> rw [← h.2.1] at ha <;> exact Action.noConfusion ha

/-- C10 witness: the Scenario 2 BUY preserves the mark-to-market value
10000. -/
theorem C10_mark_to_market_witness :
    (0:ℚ) < 48000 ∧
    ((⟨9900, 100 / 48000, 48000, 10000⟩ : Portfolio).cash +
        (⟨9900, 100 / 48000, 48000, 10000⟩ : Portfolio).btc * 48000 =
      (⟨10000, 0, 50000, 10000⟩ : Portfolio).cash +
        (⟨10000, 0, 50000, 10000⟩ : Portfolio).btc * 48000 ∧
      (⟨9900, 100 / 48000, 48000, 10000⟩ : Portfolio).total_value =
        (⟨10000, 0, 50000, 10000⟩ : Portfolio).cash +
          (⟨10000, 0, 50000, 10000⟩ : Portfolio).btc * 48000) :=
  ⟨by norm_num,
    C10_mark_to_market ⟨10000, 0, 50000, 10000⟩ 48000
      ⟨9900, 100 / 48000, 48000, 10000⟩ Action.BUY (Msg.dipBuy (100 / 48000))
      (by norm_num) (by norm_num [trade_decision, settle]) (Or.inl rfl)⟩

end Trader

namespace Trader

/-- C4 counterexample: with an empty file system, a fetched price of exactly
0 does not reach any division — the entry point's `if price:` check treats
`0.0` as falsy, so the run takes the fetch-failure branch and leaves both
files untouched. -/
theorem C4_zero_price_counterexample :
    main_cycle ⟨false, none, none⟩ (some 0) "t" =
      some (⟨true, none, none⟩, [ConsoleMsg.failedFetch]) := by
  norm_num [main_cycle]

/-- C4 (amended): a fetched price of exactly 0 is rejected by the entry
point's truthiness check, so no program execution evaluates
`100 / current_price` with a zero divisor; the division inside the trade
logic itself is unguarded, so calling `execute_trade`'s decision directly
with `current_price = 0`, a positive `last_price` and sufficient cash does
raise (`none`). -/
theorem C4_zero_price_skipped (fs : FS) (ts : String) (p : Portfolio)
    (h0 : 0 < p.last_price) (h100 : 100 ≤ p.cash) :
    main_cycle fs (some 0) ts =
      some ({ fs with dataDirExists := true }, [ConsoleMsg.failedFetch]) ∧
    trade_decision p 0 = none := by
  constructor
  · norm_num [main_cycle]
  · unfold trade_decision
    rw [if_neg (by exact h0.ne'), if_pos (mul_pos h0 (by norm_num)),
      if_pos h100, if_pos rfl]

/-- C4 witness: a concrete file system and a concrete portfolio satisfying
the hypotheses. -/
theorem C4_zero_price_skipped_witness :
    (0:ℚ) < (⟨10000, 0, 50000, 10000⟩ : Portfolio).last_price ∧
    (100:ℚ) ≤ (⟨10000, 0, 50000, 10000⟩ : Portfolio).cash ∧
    (main_cycle ⟨false, none, none⟩ (some 0) "s" =
        some ({ (⟨false, none, none⟩ : FS) with dataDirExists := true },
          [ConsoleMsg.failedFetch]) ∧
      trade_decision ⟨10000, 0, 50000, 10000⟩ 0 = none) :=
  ⟨by norm_num, by norm_num,
    C4_zero_price_skipped ⟨false, none, none⟩ "s" ⟨10000, 0, 50000, 10000⟩
      (by norm_num) (by norm_num)⟩

/-- C5: when the price fetch fails (`get_btc_price` returns `None`), the run
performs no state mutation and no log write — the portfolio file and the
trade log are unchanged (only the `data` directory is ensured) and only the
failure console message is produced. -/
theorem C5_fetch_failure_skips (fs : FS) (ts : String) :
    main_cycle fs none ts =
      some ({ fs with dataDirExists := true }, [ConsoleMsg.failedFetch]) ∧
    ({ fs with dataDirExists := true } : FS).portfolioFile = fs.portfolioFile ∧
    ({ fs with dataDirExists := true } : FS).logFile = fs.logFile :=
  ⟨rfl, rfl, rfl⟩

/-- C8: `load_portfolio` returns the fresh record
`{cash := 10000, btc := 0, last_price := 0, total_value := 10000}` when no
portfolio file exists, and the persisted record when one does. -/
theorem C8_load_portfolio_contract :
    load_portfolio none =
      { cash := INITIAL_CASH, btc := 0, last_price := 0,
        total_value := INITIAL_CASH } ∧
    INITIAL_CASH = 10000 ∧
    ∀ p, load_portfolio (some p) = p :=
  ⟨rfl, rfl, fun _ => rfl⟩

end Trader

namespace Trader

/-- With a nonzero current price no division by zero can occur, so the
decision always succeeds. -/
theorem trade_decision_total (p : Portfolio) (c : ℚ) (hc : c ≠ 0) :
    ∃ r, trade_decision p c = some r := by
  unfold trade_decision
  split_ifs <;> first | exact ⟨_, rfl⟩ | simp_all

/-- Appending a data row does not change the number of header rows. -/
theorem header_count_append_entry (ls : List LogLine) (ts : String) (a : Action)
    (pr tv : ℚ) (m : Msg) :
    header_count (ls ++ [LogLine.entry ts a pr tv m]) = header_count ls := by
  unfold header_count
  rw [List.countP_append]
  simp [List.countP_cons]

/-- One scheduled run with a truthy (nonzero) fetched price: the updated
portfolio is saved and exactly one data row is appended to the log. -/
theorem main_cycle_step (fs : FS) (c : ℚ) (ts : String) (hc : c ≠ 0) :
    ∃ q a m, main_cycle fs (some c) ts =
      some ({ dataDirExists := true,
              portfolioFile := some q,
              logFile := some (append_log fs.logFile
                (LogLine.entry ts a c q.total_value m)) },
            [ConsoleMsg.btcPrice c, ConsoleMsg.doneAction a]) := by
  obtain ⟨⟨q, a, m⟩, hd⟩ :=
    trade_decision_total (load_portfolio fs.portfolioFile) c hc
  refine ⟨q, a, m, ?_⟩
  have hexec : execute_trade { fs with dataDirExists := true }
      (load_portfolio fs.portfolioFile) c ts =
      some ({ dataDirExists := true,
              portfolioFile := some q,
              logFile := some (append_log fs.logFile
                (LogLine.entry ts a c q.total_value m)) }, a, m) := by
    unfold execute_trade
    rw [hd]
  unfold main_cycle
  dsimp only
  rw [if_pos hc, hexec]

/-- Unfolding one run of `run_cycles`. -/
theorem run_cycles_cons (fs w : FS) (price : Option ℚ) (ts : String)
    (out : List ConsoleMsg) (rest : List (Option ℚ × String))
    (h : main_cycle fs price ts = some (w, out)) :
    run_cycles fs ((price, ts) :: rest) = run_cycles w rest := by
  show (match main_cycle fs price ts with
        | none => none
        | some (fs1, _) => run_cycles fs1 rest) = run_cycles w rest
  rw [h]

/-- Log invariant of repeated runs: starting from a log that exists and has
exactly one header row, any sequence of truthy-price runs succeeds and ends
with exactly one header row, having appended one row per run. -/
theorem run_cycles_log_invariant (runs : List (Option ℚ × String)) (fs : FS)
    (ls : List LogLine) (hlog : fs.logFile = some ls)
    (hone : header_count ls = 1)
    (hruns : ∀ x ∈ runs, ∃ c : ℚ, x.1 = some c ∧ c ≠ 0) :
    ∃ fs1 ls1, run_cycles fs runs = some fs1 ∧ fs1.logFile = some ls1 ∧
      header_count ls1 = 1 ∧ ls1.length = ls.length + runs.length := by
  induction runs generalizing fs ls with
  | nil => exact ⟨fs, ls, rfl, hlog, hone, by simp⟩
  | cons x rest ih =>
      obtain ⟨c, hx, hc⟩ := hruns x (List.mem_cons_self x rest)
      obtain ⟨xp, xts⟩ := x
      dsimp only at hx
      subst hx
      obtain ⟨q, a, m, hstep⟩ := main_cycle_step fs c xts hc
      obtain ⟨fs1, ls1, h1, h2, h3, h4⟩ :=
        ih { dataDirExists := true,
             portfolioFile := some q,
             logFile := some (append_log fs.logFile
               (LogLine.entry xts a c q.total_value m)) }
          (ls ++ [LogLine.entry xts a c q.total_value m])
          (by show some (append_log fs.logFile _) = _
              rw [hlog]
              rfl)

          (by rw [header_count_append_entry]; exact hone)
          (fun y hy => hruns y (List.mem_cons_of_mem _ hy))
      refine ⟨fs1, ls1, ?_, h2, h3, ?_⟩
      · rw [run_cycles_cons fs _ (some c) xts _ rest hstep]
        exact h1
      · rw [h4]
        simp only [List.length_append, List.length_cons, List.length_nil]
        omega

/-- C9: the header row is written iff the log file did not previously exist
(append to an absent log yields the header then the row; append to an
existing log only appends), every successful `execute_trade` appends exactly
one data row after the previous lines, and across any nonempty sequence of
truthy-price runs starting from an absent log the header appears exactly
once, with one data row per run. -/
theorem C9_log_header_once :
    (∀ e, append_log none e = [LogLine.header, e]) ∧
    (∀ ls e, append_log (some ls) e = ls ++ [e]) ∧
    (∀ fs p c ts r, execute_trade fs p c ts = some r →
      ∃ a tv m, r.1.logFile =
        some (append_log fs.logFile (LogLine.entry ts a c tv m))) ∧
    (∀ fs runs, fs.logFile = none → runs ≠ [] →
      (∀ x ∈ runs, ∃ c : ℚ, x.1 = some c ∧ c ≠ 0) →
      ∃ fs1 ls1, run_cycles fs runs = some fs1 ∧ fs1.logFile = some ls1 ∧
        header_count ls1 = 1 ∧ ls1.length = runs.length + 1) := by
  refine ⟨fun e => rfl, fun ls e => rfl, ?_, ?_⟩
  · intro fs p c ts r h
    obtain ⟨q, msg, _, _, hr⟩ := execute_trade_shape fs p c ts r h
    exact ⟨r.2.1, q.total_value, msg, by rw [hr]⟩
  · intro fs runs hnone hne hruns
    match runs with
    | [] => exact absurd rfl hne
    | x :: rest =>
      obtain ⟨c, hx, hc⟩ := hruns x (List.mem_cons_self x rest)
      obtain ⟨xp, xts⟩ := x
      dsimp only at hx
      subst hx
      obtain ⟨q, a, m, hstep⟩ := main_cycle_step fs c xts hc
      obtain ⟨fs1, ls1, h1, h2, h3, h4⟩ :=
        run_cycles_log_invariant rest
          { dataDirExists := true,
            portfolioFile := some q,
            logFile := some (append_log fs.logFile
              (LogLine.entry xts a c q.total_value m)) }
          [LogLine.header, LogLine.entry xts a c q.total_value m]
          (by show some (append_log fs.logFile _) = _
              rw [hnone]
              rfl)
          (by simp [header_count, List.countP_cons])
          (fun y hy => hruns y (List.mem_cons_of_mem _ hy))
      refine ⟨fs1, ls1, ?_, h2, h3, ?_⟩
      · rw [run_cycles_cons fs _ (some c) xts _ rest hstep]
        exact h1
      · rw [h4]
        simp only [List.length_cons, List.length_nil]
        omega

/-- C9 witness: two truthy-price runs from an empty file system produce a
log with exactly one header row and one data row per run. -/
theorem C9_log_header_once_witness :
    (⟨false, none, none⟩ : FS).logFile = none ∧
    ([((some 48000 : Option ℚ), "t1"), ((some 50000 : Option ℚ), "t2")] ≠
      ([] : List (Option ℚ × String))) ∧
    (∀ x ∈ [((some 48000 : Option ℚ), "t1"), ((some 50000 : Option ℚ), "t2")],
      ∃ c : ℚ, x.1 = some c ∧ c ≠ 0) ∧
    (∃ fs1 ls1, run_cycles ⟨false, none, none⟩
        [((some 48000 : Option ℚ), "t1"), ((some 50000 : Option ℚ), "t2")] =
          some fs1 ∧
      fs1.logFile = some ls1 ∧ header_count ls1 = 1 ∧
      ls1.length =
        [((some 48000 : Option ℚ), "t1"),
          ((some 50000 : Option ℚ), "t2")].length + 1) := by
  have hruns : ∀ x ∈ [((some 48000 : Option ℚ), "t1"),
      ((some 50000 : Option ℚ), "t2")], ∃ c : ℚ, x.1 = some c ∧ c ≠ 0 := by
    intro x hx
    rcases List.mem_cons.mp hx with h | h
    · subst h
      exact ⟨48000, rfl, by norm_num⟩
    · rcases List.mem_cons.mp h with h2 | h2
      · subst h2
        exact ⟨50000, rfl, by norm_num⟩
      · exact absurd h2 (List.not_mem_nil x)
  exact ⟨rfl, by simp, hruns,
    C9_log_header_once.2.2.2 ⟨false, none, none⟩
      [((some 48000 : Option ℚ), "t1"), ((some 50000 : Option ℚ), "t2")]
      rfl (by simp) hruns⟩

end Trader
